import Mathlib

/-
Shallow embedding of the Violet Soul Cipher v4
(src/plugins/violet-core/scripts/rust/src/main.rs).

Modelling conventions:
* Byte strings are `List Nat` (each entry a byte value).  Rust `&str` values
  (passphrases, salt labels, file names) are modelled by their byte lists;
  `strBytes` turns an ASCII Lean string literal into its byte list.
* The external crypto crates (argon2, scrypt, aes-gcm, chacha20poly1305,
  hmac/sha2, and the AEAD seal/open pairs) are not code of this repository;
  they are modelled as an oracle record `Crypto`, and `CryptoOk` states the
  contracts the proofs use (seal/open round-trips, 16-byte AEAD tag
  expansion, 32-byte HMAC output).  Everything below the oracle is a direct
  transliteration of the Rust source.
* `rand::thread_rng` randomness is passed explicitly: each salt or nonce that
  the Rust code draws becomes a parameter (the `V4Rand` record for one
  `v4_encrypt` call, a `Nat → V4Rand` stream for the file-set commands).
* Fallible Rust functions returning `anyhow::Result` become `Except VErr`;
  each `bail!` site gets a distinct `VErr` constructor (spec error kinds:
  `v4TooShort`/`aead…TooShort`/`middleTooShort`/`innerTooShort` are
  MalformedError, `notV4` is VersionError, `hmacFail`/`gcmFail`/`chachaFail`/
  `cbcFail`/`triedAll` are AuthError, `notUtf8` is EncodingError).
* A Rust `String` is modelled as its UTF-8 byte list; `String::from_utf8`
  becomes `from_utf8`, guarded by an executable UTF-8 validator.
* The filesystem seen by one command is the data directory: a `FS`
  association list from file name (bytes) to file contents, newest entry
  first; `fsRead`/`fsWrite` model `fs::read`/`fs::write` on `dir.join(name)`.
* Instrumented variants (`…_attempts`, `…_kdfCount`, `…_traced`) are the
  same functions extended with an observation (decoders tried, number of
  Argon2id invocations, buffer wipe events); agreement lemmas relate them to
  the plain functions.
-/

namespace Violet

abbrev Bytes := List Nat

/-- Byte list of an ASCII string literal. -/
def strBytes (s : String) : Bytes := s.toList.map Char.toNat

abbrev VERSION_V4 : Nat := 0x04
abbrev ARGON2_SALT_LEN : Nat := 32
abbrev GCM_NONCE_LEN : Nat := 12
abbrev AES_CBC_IV_LEN : Nat := 16
abbrev KEY_LEN : Nat := 32

def LOCAL_SALT : Bytes := strBytes "violet-soul-salt-local-2026"
def GIT_SALT : Bytes := strBytes "violet-soul-salt-git-2026"
def OUTER_SALT : Bytes := strBytes "violet-outer-shell-2026"

def EMBEDDED_SEED : Bytes := strBytes "V10l3t-C1ph3r-S33d-2026-Kl4ud1a!"

def TARGET_FILES : List Bytes :=
  [strBytes "rules-index.json", strBytes "minds-index.json", strBytes "vibe-library.json"]

/-- Error kinds, one constructor per `bail!`/failure site of the source. -/
inductive VErr where
  | v4TooShort
  | notV4
  | hmacFail
  | gcmTooShort
  | gcmFail
  | chachaTooShort
  | chachaFail
  | cbcTooShort
  | cbcFail
  | middleTooShort
  | innerTooShort
  | notUtf8
  | triedAll
deriving DecidableEq

/-- Oracle for the external crypto crates.  `seal key nonce plaintext`
returns ciphertext-with-tag, `open key nonce data` returns the plaintext or
`none` on tag failure; `argon2 input salt` and `scrypt pass salt` return the
derived key; `hmacSha256 key data` returns the tag. -/
structure Crypto where
  aesGcmSeal : Bytes → Bytes → Bytes → Bytes
  aesGcmOpen : Bytes → Bytes → Bytes → Option Bytes
  chachaSeal : Bytes → Bytes → Bytes → Bytes
  chachaOpen : Bytes → Bytes → Bytes → Option Bytes
  cbcOpen : Bytes → Bytes → Bytes → Option Bytes
  argon2 : Bytes → Bytes → Bytes
  scrypt : Bytes → Bytes → Bytes
  hmacSha256 : Bytes → Bytes → Bytes

/-- Contracts of the crypto primitives the round-trip proofs rely on. -/
structure CryptoOk (C : Crypto) : Prop where
  aesGcm_open_seal : ∀ k n p, C.aesGcmOpen k n (C.aesGcmSeal k n p) = some p
  aesGcm_seal_len : ∀ k n p, (C.aesGcmSeal k n p).length = p.length + 16
  chacha_open_seal : ∀ k n p, C.chachaOpen k n (C.chachaSeal k n p) = some p
  chacha_seal_len : ∀ k n p, (C.chachaSeal k n p).length = p.length + 16
  hmac_len : ∀ k d, (C.hmacSha256 k d).length = 32

/-- Rust `derive_embedded_key`: byte i of the baked-in literal XOR
(i * 0x5A + 0x3C) mod 256. -/
def derive_embedded_key : Bytes :=
  (List.range KEY_LEN).map (fun i => Nat.xor (EMBEDDED_SEED.getD i 0) ((i * 0x5A + 0x3C) % 256))

/-- Rust `derive_key_argon2`: Argon2id over passphrase ‖ embedded key. -/
def derive_key_argon2 (C : Crypto) (passphrase salt : Bytes) : Bytes :=
  C.argon2 (passphrase ++ derive_embedded_key) salt

/-- Rust `derive_key_scrypt` (fixed params log2N=14, r=8, p=1, dkLen=32). -/
def derive_key_scrypt (C : Crypto) (passphrase salt : Bytes) : Bytes :=
  C.scrypt passphrase salt

/-- Rust `compute_hmac`. -/
def compute_hmac (C : Crypto) (key data : Bytes) : Bytes := C.hmacSha256 key data

/-- Rust `encrypt_aes_gcm`; the random nonce is the explicit `nonce` argument. -/
def encrypt_aes_gcm (C : Crypto) (key nonce plaintext : Bytes) : Bytes :=
  nonce ++ C.aesGcmSeal key nonce plaintext

/-- Rust `decrypt_aes_gcm`. -/
def decrypt_aes_gcm (C : Crypto) (key data : Bytes) : Except VErr Bytes :=
  if data.length < GCM_NONCE_LEN + 16 then .error .gcmTooShort
  else
    match C.aesGcmOpen key (data.take GCM_NONCE_LEN) (data.drop GCM_NONCE_LEN) with
    | some pt => .ok pt
    | none => .error .gcmFail

/-- Rust `encrypt_chacha20`; the random nonce is the explicit `nonce` argument. -/
def encrypt_chacha20 (C : Crypto) (key nonce plaintext : Bytes) : Bytes :=
  nonce ++ C.chachaSeal key nonce plaintext

/-- Rust `decrypt_chacha20`. -/
def decrypt_chacha20 (C : Crypto) (key data : Bytes) : Except VErr Bytes :=
  if data.length < GCM_NONCE_LEN + 16 then .error .chachaTooShort
  else
    match C.chachaOpen key (data.take GCM_NONCE_LEN) (data.drop GCM_NONCE_LEN) with
    | some pt => .ok pt
    | none => .error .chachaFail

/-- Rust `decrypt_aes_cbc` (legacy path; iv ‖ ciphertext, PKCS#7 inside the oracle). -/
def decrypt_aes_cbc (C : Crypto) (key data : Bytes) : Except VErr Bytes :=
  if data.length < AES_CBC_IV_LEN + 16 then .error .cbcTooShort
  else
    match C.cbcOpen key (data.take AES_CBC_IV_LEN) (data.drop AES_CBC_IV_LEN) with
    | some pt => .ok pt
    | none => .error .cbcFail

/-- The six random draws of one `v4_encrypt` call, in draw order. -/
structure V4Rand where
  inner_salt : Bytes
  inner_nonce : Bytes
  middle_salt : Bytes
  middle_nonce : Bytes
  outer_salt : Bytes
  outer_nonce : Bytes

/-- The randomness has the lengths the source draws (32-byte salts, 12-byte nonces). -/
def V4Rand.Ok (r : V4Rand) : Prop :=
  r.inner_salt.length = ARGON2_SALT_LEN ∧ r.inner_nonce.length = GCM_NONCE_LEN ∧
  r.middle_salt.length = ARGON2_SALT_LEN ∧ r.middle_nonce.length = GCM_NONCE_LEN ∧
  r.outer_salt.length = ARGON2_SALT_LEN ∧ r.outer_nonce.length = GCM_NONCE_LEN

/-- Rust `v4_encrypt` (lines 239-271): three nested AEAD layers, then the
trailing HMAC, computed over `outer_enc` only. -/
def v4_encrypt (C : Crypto) (passphrase salt_label plaintext : Bytes) (r : V4Rand) : Bytes :=
  let inner_key := derive_key_argon2 C passphrase r.inner_salt
  let inner_enc := encrypt_aes_gcm C inner_key r.inner_nonce plaintext
  let inner_payload := r.inner_salt ++ inner_enc
  let middle_passphrase := passphrase ++ strBytes "-middle-" ++ salt_label
  let middle_key := derive_key_argon2 C middle_passphrase r.middle_salt
  let middle_enc := encrypt_chacha20 C middle_key r.middle_nonce inner_payload
  let middle_payload := r.middle_salt ++ middle_enc
  let outer_passphrase := passphrase ++ strBytes "-outer-" ++ salt_label
  let outer_key := derive_key_argon2 C outer_passphrase r.outer_salt
  let outer_enc := encrypt_aes_gcm C outer_key r.outer_nonce middle_payload
  let hmac_data := compute_hmac C derive_embedded_key outer_enc
  [VERSION_V4] ++ r.outer_salt ++ outer_enc ++ hmac_data

/-- Rust `v4_decrypt` (lines 273-311).  Note the source order: length check,
then version byte, then the HMAC gate, then the three KDF+AEAD stages. -/
def v4_decrypt (C : Crypto) (passphrase salt_label data : Bytes) : Except VErr Bytes :=
  if data.length < 1 + ARGON2_SALT_LEN + GCM_NONCE_LEN + 16 + 32 then .error .v4TooShort
  else if data.getD 0 0 ≠ VERSION_V4 then .error .notV4
  else
    let hmac_offset := data.length - 32
    let expected_hmac := data.drop hmac_offset
    let computed_hmac := compute_hmac C derive_embedded_key ((data.take hmac_offset).drop (1 + ARGON2_SALT_LEN))
    if expected_hmac ≠ computed_hmac then .error .hmacFail
    else
      let outer_salt := (data.drop 1).take ARGON2_SALT_LEN
      let outer_enc := (data.take hmac_offset).drop (1 + ARGON2_SALT_LEN)
      let outer_key := derive_key_argon2 C (passphrase ++ strBytes "-outer-" ++ salt_label) outer_salt
      match decrypt_aes_gcm C outer_key outer_enc with
      | .error e => .error e
      | .ok middle_payload =>
        if middle_payload.length < ARGON2_SALT_LEN + GCM_NONCE_LEN + 16 then .error .middleTooShort
        else
          let middle_salt := middle_payload.take ARGON2_SALT_LEN
          let middle_enc := middle_payload.drop ARGON2_SALT_LEN
          let middle_key := derive_key_argon2 C (passphrase ++ strBytes "-middle-" ++ salt_label) middle_salt
          match decrypt_chacha20 C middle_key middle_enc with
          | .error e => .error e
          | .ok inner_payload =>
            if inner_payload.length < ARGON2_SALT_LEN + GCM_NONCE_LEN + 16 then .error .innerTooShort
            else
              let inner_salt := inner_payload.take ARGON2_SALT_LEN
              let inner_enc := inner_payload.drop ARGON2_SALT_LEN
              let inner_key := derive_key_argon2 C passphrase inner_salt
              decrypt_aes_gcm C inner_key inner_enc

/-- Rust `v3_decrypt` (legacy double CBC). -/
def v3_decrypt (C : Crypto) (passphrase salt data : Bytes) : Except VErr Bytes :=
  let outer_key := derive_key_scrypt C (passphrase ++ strBytes "-outer") OUTER_SALT
  match decrypt_aes_cbc C outer_key data with
  | .error e => .error e
  | .ok inner_enc =>
    let inner_key := derive_key_scrypt C passphrase salt
    decrypt_aes_cbc C inner_key inner_enc

/-- Rust `v2_decrypt` (legacy single CBC). -/
def v2_decrypt (C : Crypto) (passphrase data : Bytes) : Except VErr Bytes :=
  let key := derive_key_scrypt C passphrase (strBytes "violet-soul-salt")
  decrypt_aes_cbc C key data

/-- Executable UTF-8 validity check (the strict check that Rust
`String::from_utf8` performs: continuation ranges, no overlongs, no
surrogates, max U+10FFFF). -/
def validUtf8 : Bytes → Bool
  | [] => true
  | b :: rest =>
    if b ≤ 0x7F then validUtf8 rest
    else if 0xC2 ≤ b && b ≤ 0xDF then
      match rest with
      | b1 :: r => (0x80 ≤ b1 && b1 ≤ 0xBF) && validUtf8 r
      | [] => false
    else if b = 0xE0 then
      match rest with
      | b1 :: b2 :: r => (0xA0 ≤ b1 && b1 ≤ 0xBF) && (0x80 ≤ b2 && b2 ≤ 0xBF) && validUtf8 r
      | _ => false
    else if (0xE1 ≤ b && b ≤ 0xEC) || b = 0xEE || b = 0xEF then
      match rest with
      | b1 :: b2 :: r => (0x80 ≤ b1 && b1 ≤ 0xBF) && (0x80 ≤ b2 && b2 ≤ 0xBF) && validUtf8 r
      | _ => false
    else if b = 0xED then
      match rest with
      | b1 :: b2 :: r => (0x80 ≤ b1 && b1 ≤ 0x9F) && (0x80 ≤ b2 && b2 ≤ 0xBF) && validUtf8 r
      | _ => false
    else if b = 0xF0 then
      match rest with
      | b1 :: b2 :: b3 :: r =>
        (0x90 ≤ b1 && b1 ≤ 0xBF) && (0x80 ≤ b2 && b2 ≤ 0xBF) && (0x80 ≤ b3 && b3 ≤ 0xBF) && validUtf8 r
      | _ => false
    else if 0xF1 ≤ b && b ≤ 0xF3 then
      match rest with
      | b1 :: b2 :: b3 :: r =>
        (0x80 ≤ b1 && b1 ≤ 0xBF) && (0x80 ≤ b2 && b2 ≤ 0xBF) && (0x80 ≤ b3 && b3 ≤ 0xBF) && validUtf8 r
      | _ => false
    else if b = 0xF4 then
      match rest with
      | b1 :: b2 :: b3 :: r =>
        (0x80 ≤ b1 && b1 ≤ 0x8F) && (0x80 ≤ b2 && b2 ≤ 0xBF) && (0x80 ≤ b3 && b3 ≤ 0xBF) && validUtf8 r
      | _ => false
    else false

/-- Rust `String::from_utf8`: a Rust String is modelled as its UTF-8 bytes,
so a successful conversion keeps the byte list. -/
def from_utf8 (bs : Bytes) : Option Bytes := if validUtf8 bs then some bs else none

/-- The v4-only branch of `auto_decrypt` (source lines 330-333): v4 decrypt,
then UTF-8 decode, errors returned directly. -/
def v4_then_utf8 (C : Crypto) (passphrase salt data : Bytes) : Except VErr Bytes :=
  match v4_decrypt C passphrase salt data with
  | .error e => .error e
  | .ok plain =>
    match from_utf8 plain with
    | some s => .ok s
    | none => .error .notUtf8

/-- The trailing v2 trial of `auto_decrypt` (source lines 339-344): any
failure falls through to the consolidated bail. -/
def auto_try_v2 (C : Crypto) (passphrase data : Bytes) : Except VErr Bytes :=
  match v2_decrypt C passphrase data with
  | .ok plain =>
    match from_utf8 plain with
    | some s => .ok s
    | none => .error .triedAll
  | .error _ => .error .triedAll

/-- Rust `auto_decrypt` (lines 329-345). -/
def auto_decrypt (C : Crypto) (passphrase salt data : Bytes) : Except VErr Bytes :=
  if data ≠ [] ∧ data.getD 0 0 = VERSION_V4 then
    v4_then_utf8 C passphrase salt data
  else
    match v3_decrypt C passphrase salt data with
    | .ok plain =>
      match from_utf8 plain with
      | some s => .ok s
      | none => auto_try_v2 C passphrase data
    | .error _ => auto_try_v2 C passphrase data

/-- Decoder generations, for instrumentation of the dispatcher. -/
inductive Ver where
  | v4
  | v3
  | v2
deriving DecidableEq

/-- Instrumented `auto_decrypt`: the same result paired with the list of decoders attempted, in order. -/
def auto_decrypt_attempts (C : Crypto) (passphrase salt data : Bytes) :
    Except VErr Bytes × List Ver :=
  if data ≠ [] ∧ data.getD 0 0 = VERSION_V4 then
    (v4_then_utf8 C passphrase salt data, [Ver.v4])
  else
    match v3_decrypt C passphrase salt data with
    | .ok plain =>
      match from_utf8 plain with
      | some s => (.ok s, [Ver.v3])
      | none => (auto_try_v2 C passphrase data, [Ver.v3, Ver.v2])
    | .error _ => (auto_try_v2 C passphrase data, [Ver.v3, Ver.v2])

/-- Instrumented `v4_decrypt`: the same result paired with a counter of `derive_key_argon2` invocations. -/
def v4_decrypt_kdfCount (C : Crypto) (passphrase salt_label data : Bytes) :
    Except VErr Bytes × Nat :=
  if data.length < 1 + ARGON2_SALT_LEN + GCM_NONCE_LEN + 16 + 32 then (.error .v4TooShort, 0)
  else if data.getD 0 0 ≠ VERSION_V4 then (.error .notV4, 0)
  else
    let hmac_offset := data.length - 32
    let expected_hmac := data.drop hmac_offset
    let computed_hmac := compute_hmac C derive_embedded_key ((data.take hmac_offset).drop (1 + ARGON2_SALT_LEN))
    if expected_hmac ≠ computed_hmac then (.error .hmacFail, 0)
    else
      let outer_salt := (data.drop 1).take ARGON2_SALT_LEN
      let outer_enc := (data.take hmac_offset).drop (1 + ARGON2_SALT_LEN)
      let outer_key := derive_key_argon2 C (passphrase ++ strBytes "-outer-" ++ salt_label) outer_salt
      match decrypt_aes_gcm C outer_key outer_enc with
      | .error e => (.error e, 1)
      | .ok middle_payload =>
        if middle_payload.length < ARGON2_SALT_LEN + GCM_NONCE_LEN + 16 then (.error .middleTooShort, 1)
        else
          let middle_salt := middle_payload.take ARGON2_SALT_LEN
          let middle_enc := middle_payload.drop ARGON2_SALT_LEN
          let middle_key := derive_key_argon2 C (passphrase ++ strBytes "-middle-" ++ salt_label) middle_salt
          match decrypt_chacha20 C middle_key middle_enc with
          | .error e => (.error e, 2)
          | .ok inner_payload =>
            if inner_payload.length < ARGON2_SALT_LEN + GCM_NONCE_LEN + 16 then (.error .innerTooShort, 2)
            else
              let inner_salt := inner_payload.take ARGON2_SALT_LEN
              let inner_enc := inner_payload.drop ARGON2_SALT_LEN
              let inner_key := derive_key_argon2 C passphrase inner_salt
              (decrypt_aes_gcm C inner_key inner_enc, 3)

/-- Buffer-hygiene events: allocation and explicit zeroization of the
sensitive buffers (`combined` = passphrase ‖ embedded key, key = a 32-byte
derived key). -/
inductive BufEvent where
  | allocCombined
  | wipeCombined
  | allocKey
  | wipeKey
deriving DecidableEq

/-- Rust `derive_key_argon2` with its wipe trace: `combined` is allocated,
the key buffer is allocated, and `combined.zeroize()` runs before return.
The key buffer is returned unwiped (the caller owns it). -/
def derive_key_argon2_traced (C : Crypto) (passphrase salt : Bytes) : Bytes × List BufEvent :=
  (C.argon2 (passphrase ++ derive_embedded_key) salt,
   [BufEvent.allocCombined, BufEvent.allocKey, BufEvent.wipeCombined])

/-- Rust `v4_encrypt` with the wipe trace of every sensitive buffer it and
its KDF calls touch.  The source contains no `zeroize` call on
`inner_key`, `middle_key` or `outer_key`, so no `wipeKey` event occurs. -/
def v4_encrypt_traced (C : Crypto) (passphrase salt_label plaintext : Bytes) (r : V4Rand) :
    Bytes × List BufEvent :=
  let inner := derive_key_argon2_traced C passphrase r.inner_salt
  let inner_enc := encrypt_aes_gcm C inner.1 r.inner_nonce plaintext
  let inner_payload := r.inner_salt ++ inner_enc
  let middle_passphrase := passphrase ++ strBytes "-middle-" ++ salt_label
  let middle := derive_key_argon2_traced C middle_passphrase r.middle_salt
  let middle_enc := encrypt_chacha20 C middle.1 r.middle_nonce inner_payload
  let middle_payload := r.middle_salt ++ middle_enc
  let outer_passphrase := passphrase ++ strBytes "-outer-" ++ salt_label
  let outer := derive_key_argon2_traced C outer_passphrase r.outer_salt
  let outer_enc := encrypt_aes_gcm C outer.1 r.outer_nonce middle_payload
  let hmac_data := compute_hmac C derive_embedded_key outer_enc
  ([VERSION_V4] ++ r.outer_salt ++ outer_enc ++ hmac_data,
   inner.2 ++ middle.2 ++ outer.2)

/-- The data directory: file name ↦ contents, newest write first. -/
abbrev FS := List (Bytes × Bytes)

/-- Model of `fs::read(dir.join(name))`: `none` when the file is absent. -/
def fsRead (fs : FS) (path : Bytes) : Option Bytes :=
  (fs.find? (fun e => e.1 == path)).map (fun e => e.2)

/-- Model of `fs::write(dir.join(name), content)`: the new entry shadows
any earlier one. -/
def fsWrite (fs : FS) (path : Bytes) (content : Bytes) : FS :=
  (path, content) :: fs

/-- The two-byte placeholder document, Rust `b"\x7b\x7d"` (open brace, close brace). -/
def placeholder : Bytes := [123, 125]

/-- Rust `cmd_encrypt_git` (lines 387-398): for every target name, encrypt
the placeholder under the git salt label and write `name.git.enc`.  Result:
(final filesystem, list of files read).  The source reads no file here, so
the read log is built empty. -/
def cmd_encrypt_git (C : Crypto) (key : Bytes) (rand : Nat → V4Rand) (fs : FS) :
    FS × List Bytes :=
  let fin := TARGET_FILES.foldl
    (fun (st : FS × List Bytes × Nat) (name : Bytes) =>
      let encrypted := v4_encrypt C key GIT_SALT placeholder (rand st.2.2)
      (fsWrite st.1 (name ++ strBytes ".git.enc") encrypted, st.2.1, st.2.2 + 1))
    (fs, [], 0)
  (fin.1, fin.2.1)

/-- One iteration of the `cmd_re_encrypt` loop (source lines 422-437) for
one target name: skip when the file is absent or already v4, otherwise
auto-decrypt and overwrite with a fresh v4 encryption.  The accumulator
carries (filesystem, paths written, number of `auto_decrypt` calls); the
counter also indexes the randomness stream. -/
def reEncStep (C : Crypto) (key : Bytes) (rand : Nat → V4Rand)
    (st : Except VErr (FS × List Bytes × Nat)) (name : Bytes) :
    Except VErr (FS × List Bytes × Nat) :=
  match st with
  | .error e => .error e
  | .ok acc =>
    match fsRead acc.1 (name ++ strBytes ".enc") with
    | none => .ok acc
    | some data =>
      if data ≠ [] ∧ data.getD 0 0 = VERSION_V4 then .ok acc
      else
        match auto_decrypt C key LOCAL_SALT data with
        | .error e => .error e
        | .ok json_str =>
          let re_encrypted := v4_encrypt C key LOCAL_SALT json_str (rand acc.2.2)
          .ok (fsWrite acc.1 (name ++ strBytes ".enc") re_encrypted,
               acc.2.1 ++ [name ++ strBytes ".enc"], acc.2.2 + 1)

/-- Rust `cmd_re_encrypt` (lines 420-440): the loop over the target names. -/
def cmd_re_encrypt (C : Crypto) (key : Bytes) (rand : Nat → V4Rand) (fs : FS) :
    Except VErr (FS × List Bytes × Nat) :=
  TARGET_FILES.foldl (reEncStep C key rand) (.ok (fs, [], 0))

/-- One status line of `cmd_verify`, one constructor per `println!` outcome. -/
inductive VEvent where
  | leak (name : Bytes)
  | emptyEnc (name : Bytes)
  | v4Ok (name : Bytes) (len : Nat)
  | v4NotUtf8 (name : Bytes)
  | v4Fail (name : Bytes) (e : VErr)
  | legacyOk (name : Bytes) (len : Nat)
  | legacyFail (name : Bytes) (e : VErr)
  | gitOk (name : Bytes)
  | gitLeak (name : Bytes) (len : Nat)
  | gitFail (name : Bytes) (e : VErr)
deriving DecidableEq

/-- Rust `fs::read_to_string(path).unwrap_or_default()`: non-UTF-8 (or
unreadable) contents collapse to the empty string. -/
def read_to_string_or_default (bs : Bytes) : Bytes :=
  if validUtf8 bs then bs else []

/-- Whether `needle` occurs at the start of `haystack`. -/
def leadsWith : Bytes → Bytes → Bool
  | [], _ => true
  | _ :: _, [] => false
  | a :: as, b :: bs => a == b && leadsWith as bs

/-- Rust `str::contains` with a string pattern: `needle` occurs as a
contiguous substring of `haystack`. -/
def containsSeq (needle : Bytes) (haystack : Bytes) : Bool :=
  match haystack with
  | [] => needle.isEmpty
  | _ :: t => leadsWith needle haystack || containsSeq needle t

/-- ASCII whitespace trim, modelling Rust `str::trim` on the ASCII text the
cipher handles (space, tab, line feed, vertical tab, form feed, carriage
return). -/
def isWs (b : Nat) : Bool := b = 32 || b = 9 || b = 10 || b = 11 || b = 12 || b = 13

/-- Rust `str::trim` (restricted to ASCII whitespace). -/
def trimAscii (bs : Bytes) : Bytes :=
  ((bs.dropWhile isWs).reverse.dropWhile isWs).reverse

/-- Plaintext-leak check of `cmd_verify` (source lines 446-454): if the
plaintext target exists and its text contains the passphrase, report LEAK. -/
def checkPlain (key : Bytes) (fs : FS) (name : Bytes) : List VEvent :=
  match fsRead fs name with
  | none => []
  | some bytes =>
    if containsSeq key (read_to_string_or_default bytes) then [VEvent.leak name] else []

/-- Per-name `.enc` audit of `cmd_verify` (source lines 456-488). -/
def checkEnc (C : Crypto) (key : Bytes) (fs : FS) (name : Bytes) : List VEvent :=
  match fsRead fs (name ++ strBytes ".enc") with
  | none => []
  | some data =>
    if data = [] then [VEvent.emptyEnc name]
    else if data.getD 0 0 = VERSION_V4 then
      match v4_decrypt C key LOCAL_SALT data with
      | .ok plain =>
        match from_utf8 plain with
        | some s => [VEvent.v4Ok name s.length]
        | none => [VEvent.v4NotUtf8 name]
      | .error e => [VEvent.v4Fail name e]
    else
      match auto_decrypt C key LOCAL_SALT data with
      | .ok s => [VEvent.legacyOk name s.length]
      | .error e => [VEvent.legacyFail name e]

/-- Per-name `.git.enc` audit of `cmd_verify` (source lines 490-506). -/
def checkGit (C : Crypto) (key : Bytes) (fs : FS) (name : Bytes) : List VEvent :=
  match fsRead fs (name ++ strBytes ".git.enc") with
  | none => []
  | some data =>
    match auto_decrypt C key GIT_SALT data with
    | .ok s => if trimAscii s = placeholder then [VEvent.gitOk name] else [VEvent.gitLeak name s.length]
    | .error e => [VEvent.gitFail name e]

/-- Events that increment the `issues` counter of `cmd_verify`. -/
def isIssue : VEvent → Bool
  | .leak _ => true
  | .emptyEnc _ => true
  | .v4NotUtf8 _ => true
  | .v4Fail _ _ => true
  | .legacyFail _ _ => true
  | .gitLeak _ _ => true
  | .gitFail _ _ => true
  | _ => false

/-- The three audits of one target name, in source order. -/
def verifyName (C : Crypto) (key : Bytes) (fs : FS) (name : Bytes) : List VEvent :=
  checkPlain key fs name ++ (checkEnc C key fs name ++ checkGit C key fs name)

/-- Rust `cmd_verify` (lines 442-515): status lines and issue count. -/
def cmd_verify (C : Crypto) (key : Bytes) (fs : FS) : List VEvent × Nat :=
  TARGET_FILES.foldl
    (fun (acc : List VEvent × Nat) (name : Bytes) =>
      (acc.1 ++ verifyName C key fs name,
       acc.2 + ((verifyName C key fs name).filter isIssue).length))
    ([], 0)

/-- A concrete oracle satisfying `CryptoOk`, for evaluating witnesses: seal
appends a constant 16-byte tag, open strips and checks it, the HMAC leads
with the data length so distinct-length inputs get distinct tags. -/
def toySeal (_key _nonce plaintext : Bytes) : Bytes := plaintext ++ List.replicate 16 7

/-- Inverse of `toySeal`. -/
def toyOpen (_key _nonce data : Bytes) : Option Bytes :=
  if 16 ≤ data.length ∧ data.drop (data.length - 16) = List.replicate 16 7 then
    some (data.take (data.length - 16))
  else none

/-- The toy oracle record. -/
def toyCrypto : Crypto where
  aesGcmSeal := toySeal
  aesGcmOpen := toyOpen
  chachaSeal := toySeal
  chachaOpen := toyOpen
  cbcOpen := fun _ _ _ => none
  argon2 := fun _ _ => List.replicate 32 9
  scrypt := fun _ _ => List.replicate 32 9
  hmacSha256 := fun _ d => (d.length % 256) :: List.replicate 31 1

/-- Concrete randomness with the drawn lengths. -/
def r0 : V4Rand where
  inner_salt := List.replicate 32 0
  inner_nonce := List.replicate 12 0
  middle_salt := List.replicate 32 1
  middle_nonce := List.replicate 12 1
  outer_salt := List.replicate 32 2
  outer_nonce := List.replicate 12 2

/-- Taking exactly the length of the left part of an append returns it. -/
theorem take_app (l1 l2 : Bytes) (n : Nat) (h : l1.length = n) : (l1 ++ l2).take n = l1 := by
  subst h
  induction l1 with
  | nil => simp
  | cons a t ih => simp [ih]

/-- Dropping exactly the length of the left part of an append returns the right part. -/
theorem drop_app (l1 l2 : Bytes) (n : Nat) (h : l1.length = n) : (l1 ++ l2).drop n = l2 := by
  subst h
  induction l1 with
  | nil => simp
  | cons a t ih => simp [ih]

/-- Length of the AES-GCM wrapper output. -/
theorem encrypt_aes_gcm_length (C : Crypto) (hC : CryptoOk C) (k n p : Bytes) :
    (encrypt_aes_gcm C k n p).length = n.length + p.length + 16 := by
  have h := hC.aesGcm_seal_len k n p
  simp only [encrypt_aes_gcm, List.length_append, h]
  omega

/-- Length of the ChaCha20 wrapper output. -/
theorem encrypt_chacha20_length (C : Crypto) (hC : CryptoOk C) (k n p : Bytes) :
    (encrypt_chacha20 C k n p).length = n.length + p.length + 16 := by
  have h := hC.chacha_seal_len k n p
  simp only [encrypt_chacha20, List.length_append, h]
  omega

/-- The AES-GCM wrapper pair round-trips under the oracle contract. -/
theorem decrypt_encrypt_aes_gcm (C : Crypto) (hC : CryptoOk C) (k n p : Bytes)
    (hn : n.length = GCM_NONCE_LEN) :
    decrypt_aes_gcm C k (encrypt_aes_gcm C k n p) = .ok p := by
  simp only [GCM_NONCE_LEN] at hn
  unfold decrypt_aes_gcm encrypt_aes_gcm
  have hlen : (n ++ C.aesGcmSeal k n p).length = p.length + 28 := by
    simp only [List.length_append, hC.aesGcm_seal_len, hn]
    omega
  rw [if_neg (by rw [hlen]; simp only [GCM_NONCE_LEN]; omega)]
  rw [take_app _ _ _ hn, drop_app _ _ _ hn, hC.aesGcm_open_seal]

/-- The ChaCha20 wrapper pair round-trips under the oracle contract. -/
theorem decrypt_encrypt_chacha20 (C : Crypto) (hC : CryptoOk C) (k n p : Bytes)
    (hn : n.length = GCM_NONCE_LEN) :
    decrypt_chacha20 C k (encrypt_chacha20 C k n p) = .ok p := by
  simp only [GCM_NONCE_LEN] at hn
  unfold decrypt_chacha20 encrypt_chacha20
  have hlen : (n ++ C.chachaSeal k n p).length = p.length + 28 := by
    simp only [List.length_append, hC.chacha_seal_len, hn]
    omega
  rw [if_neg (by rw [hlen]; simp only [GCM_NONCE_LEN]; omega)]
  rw [take_app _ _ _ hn, drop_app _ _ _ hn, hC.chacha_open_seal]

/-- The toy seal/open pair round-trips. -/
theorem toyOpen_toySeal (k n p : Bytes) : toyOpen k n (toySeal k n p) = some p := by
  unfold toySeal toyOpen
  have h1 : (p ++ List.replicate 16 7).length - 16 = p.length := by simp
  rw [if_pos ⟨by simp, by rw [h1]; exact drop_app _ _ _ rfl⟩, h1, take_app _ _ _ rfl]

/-- The toy oracle satisfies the crypto contracts. -/
theorem toyCrypto_ok : CryptoOk toyCrypto := by
  refine ⟨?_, ?_, ?_, ?_, ?_⟩
  · intro k n p; exact toyOpen_toySeal k n p
  · intro k n p; simp [toyCrypto, toySeal]
  · intro k n p; exact toyOpen_toySeal k n p
  · intro k n p; simp [toyCrypto, toySeal]
  · intro k d; simp [toyCrypto]

/-- The concrete randomness has the drawn lengths. -/
theorem r0_ok : r0.Ok := ⟨rfl, rfl, rfl, rfl, rfl, rfl⟩

/-- The trailing 32 bytes of a v4 frame are its tag field. -/
theorem blob_drop_tag (s e h : Bytes) (hh : h.length = 32) :
    ([VERSION_V4] ++ s ++ e ++ h).drop (([VERSION_V4] ++ s ++ e ++ h).length - 32) = h := by
  have hl : ([VERSION_V4] ++ s ++ e ++ h).length - 32 = ([VERSION_V4] ++ s ++ e).length := by
    simp only [List.length_append, List.length_cons, List.length_nil, hh]
    omega
  rw [hl]
  exact drop_app _ _ _ rfl

/-- Everything before the tag of a v4 frame. -/
theorem blob_take_body (s e h : Bytes) (hh : h.length = 32) :
    ([VERSION_V4] ++ s ++ e ++ h).take (([VERSION_V4] ++ s ++ e ++ h).length - 32)
      = [VERSION_V4] ++ s ++ e := by
  have hl : ([VERSION_V4] ++ s ++ e ++ h).length - 32 = ([VERSION_V4] ++ s ++ e).length := by
    simp only [List.length_append, List.length_cons, List.length_nil, hh]
    omega
  rw [hl]
  exact take_app _ _ _ rfl

/-- Dropping version byte and salt from the body yields the outer ciphertext. -/
theorem body_drop_vs (s e : Bytes) (hs : s.length = ARGON2_SALT_LEN) :
    ([VERSION_V4] ++ s ++ e).drop (1 + ARGON2_SALT_LEN) = e := by
  apply drop_app
  simp [hs, Nat.add_comm]

/-- The HMAC input slice of a v4 frame is exactly the outer ciphertext. -/
theorem blob_hmac_slice (s e h : Bytes) (hs : s.length = ARGON2_SALT_LEN) (hh : h.length = 32) :
    (([VERSION_V4] ++ s ++ e ++ h).take (([VERSION_V4] ++ s ++ e ++ h).length - 32)).drop
        (1 + ARGON2_SALT_LEN) = e := by
  rw [blob_take_body s e h hh, body_drop_vs s e hs]

/-- The salt slice of a v4 frame. -/
theorem blob_salt (s e h : Bytes) (hs : s.length = ARGON2_SALT_LEN) :
    (([VERSION_V4] ++ s ++ e ++ h).drop 1).take ARGON2_SALT_LEN = s := by
  have ha : [VERSION_V4] ++ s ++ e ++ h = [VERSION_V4] ++ (s ++ (e ++ h)) := by
    simp [List.append_assoc]
  rw [ha, drop_app [VERSION_V4] (s ++ (e ++ h)) 1 rfl]
  exact take_app _ _ _ hs

/-- The leading byte of a v4 frame is the version byte. -/
theorem blob_getD (s e h : Bytes) : ([VERSION_V4] ++ s ++ e ++ h).getD 0 0 = VERSION_V4 := rfl

/-- Round-trip of the v4 envelope codec: decrypt inverts encrypt whenever the
oracle satisfies the AEAD/HMAC contracts and the randomness has the drawn
lengths. -/
theorem v4_roundtrip (C : Crypto) (hC : CryptoOk C) (p l P : Bytes) (r : V4Rand) (hr : r.Ok) :
    v4_decrypt C p l (v4_encrypt C p l P r) = .ok P := by
  obtain ⟨hs1, hn1, hs2, hn2, hs3, hn3⟩ := hr
  simp only [ARGON2_SALT_LEN, GCM_NONCE_LEN] at hs1 hn1 hs2 hn2 hs3 hn3
  simp only [v4_encrypt]
  set ik := derive_key_argon2 C p r.inner_salt with hik
  set ie := encrypt_aes_gcm C ik r.inner_nonce P with hie
  set ip := r.inner_salt ++ ie with hip
  set mk := derive_key_argon2 C (p ++ strBytes "-middle-" ++ l) r.middle_salt with hmk
  set me := encrypt_chacha20 C mk r.middle_nonce ip with hme
  set mp := r.middle_salt ++ me with hmp
  set ok2 := derive_key_argon2 C (p ++ strBytes "-outer-" ++ l) r.outer_salt with hok2
  set oe := encrypt_aes_gcm C ok2 r.outer_nonce mp with hoe
  set tg := compute_hmac C derive_embedded_key oe with htg
  have hieL : ie.length = P.length + 28 := by
    rw [hie, encrypt_aes_gcm_length C hC, hn1]; omega
  have hipL : ip.length = P.length + 60 := by
    rw [hip]; simp only [List.length_append, hs1, hieL]; omega
  have hmeL : me.length = P.length + 88 := by
    rw [hme, encrypt_chacha20_length C hC, hn2, hipL]; omega
  have hmpL : mp.length = P.length + 120 := by
    rw [hmp]; simp only [List.length_append, hs2, hmeL]; omega
  have hoeL : oe.length = P.length + 148 := by
    rw [hoe, encrypt_aes_gcm_length C hC, hn3, hmpL]; omega
  have htgL : tg.length = 32 := hC.hmac_len _ _
  have hblobL : ([VERSION_V4] ++ r.outer_salt ++ oe ++ tg).length = P.length + 213 := by
    simp only [List.length_append, List.length_cons, List.length_nil, hs3, hoeL, htgL]
    omega
  simp only [v4_decrypt]
  rw [if_neg (by rw [hblobL]; simp only [ARGON2_SALT_LEN, GCM_NONCE_LEN]; omega)]
  rw [if_neg (by rw [blob_getD]; exact fun hcon => hcon rfl)]
  rw [blob_drop_tag _ _ _ htgL, blob_hmac_slice _ _ _ hs3 htgL,
      blob_salt _ _ _ hs3]
  rw [if_neg (not_ne_iff.mpr htg)]
  rw [← hok2, hoe, decrypt_encrypt_aes_gcm C hC ok2 r.outer_nonce mp hn3]
  simp only []
  rw [if_neg (by rw [hmpL]; simp only [ARGON2_SALT_LEN, GCM_NONCE_LEN]; omega)]
  rw [hmp, take_app _ _ _ hs2, drop_app _ _ _ hs2]
  rw [← hmk, hme, decrypt_encrypt_chacha20 C hC mk r.middle_nonce ip hn2]
  simp only []
  rw [if_neg (by rw [hipL]; simp only [ARGON2_SALT_LEN, GCM_NONCE_LEN]; omega)]
  rw [hip, take_app _ _ _ hs1, drop_app _ _ _ hs1]
  rw [← hik, hie, decrypt_encrypt_aes_gcm C hC ik r.inner_nonce P hn1]

/-- Total length of a v4 blob: plaintext plus 213 bytes of framing
(1 version + 3 salts of 32 + 3 nonces of 12 + 3 AEAD tags of 16 + 32 HMAC). -/
theorem v4_encrypt_length (C : Crypto) (hC : CryptoOk C) (p l P : Bytes) (r : V4Rand)
    (hr : r.Ok) : (v4_encrypt C p l P r).length = P.length + 213 := by
  obtain ⟨hs1, hn1, hs2, hn2, hs3, hn3⟩ := hr
  simp only [ARGON2_SALT_LEN, GCM_NONCE_LEN] at hs1 hn1 hs2 hn2 hs3 hn3
  simp only [v4_encrypt, List.length_append, List.length_cons, List.length_nil,
    encrypt_aes_gcm_length C hC, encrypt_chacha20_length C hC, compute_hmac, hC.hmac_len,
    hs1, hn1, hs2, hn2, hs3, hn3]
  omega

/-- The AES-GCM wrapper never produces the HMAC-gate error. -/
theorem decrypt_aes_gcm_no_hmacFail (C : Crypto) (k d : Bytes) :
    decrypt_aes_gcm C k d ≠ .error .hmacFail := by
  unfold decrypt_aes_gcm
  split
  · exact fun h => VErr.noConfusion (Except.error.inj h)
  · split
    · exact fun h => Except.noConfusion h
    · exact fun h => VErr.noConfusion (Except.error.inj h)

/-- The ChaCha20 wrapper never produces the HMAC-gate error. -/
theorem decrypt_chacha20_no_hmacFail (C : Crypto) (k d : Bytes) :
    decrypt_chacha20 C k d ≠ .error .hmacFail := by
  unfold decrypt_chacha20
  split
  · exact fun h => VErr.noConfusion (Except.error.inj h)
  · split
    · exact fun h => Except.noConfusion h
    · exact fun h => VErr.noConfusion (Except.error.inj h)

/-- The AES-GCM wrapper never produces the version error. -/
theorem decrypt_aes_gcm_no_notV4 (C : Crypto) (k d : Bytes) :
    decrypt_aes_gcm C k d ≠ .error .notV4 := by
  unfold decrypt_aes_gcm
  split
  · exact fun h => VErr.noConfusion (Except.error.inj h)
  · split
    · exact fun h => Except.noConfusion h
    · exact fun h => VErr.noConfusion (Except.error.inj h)

/-- The ChaCha20 wrapper never produces the version error. -/
theorem decrypt_chacha20_no_notV4 (C : Crypto) (k d : Bytes) :
    decrypt_chacha20 C k d ≠ .error .notV4 := by
  unfold decrypt_chacha20
  split
  · exact fun h => VErr.noConfusion (Except.error.inj h)
  · split
    · exact fun h => Except.noConfusion h
    · exact fun h => VErr.noConfusion (Except.error.inj h)

/-- On a long-enough v4-marked blob, `v4_decrypt` fails at the HMAC gate
exactly when the stored tag differs from the HMAC of bytes
[1 + 32, len - 32) — the source compares that slice. -/
theorem v4_decrypt_hmacFail_iff (C : Crypto) (p l data : Bytes)
    (hlen : ¬ data.length < 1 + ARGON2_SALT_LEN + GCM_NONCE_LEN + 16 + 32)
    (hver : data.getD 0 0 = VERSION_V4) :
    v4_decrypt C p l data = .error .hmacFail ↔
      data.drop (data.length - 32) ≠
        compute_hmac C derive_embedded_key
          ((data.take (data.length - 32)).drop (1 + ARGON2_SALT_LEN)) := by
  simp only [v4_decrypt]
  rw [if_neg hlen, if_neg (not_ne_iff.mpr hver)]
  by_cases htag : data.drop (data.length - 32) =
      compute_hmac C derive_embedded_key
        ((data.take (data.length - 32)).drop (1 + ARGON2_SALT_LEN))
  · rw [if_neg (not_ne_iff.mpr htag)]
    constructor
    · intro hcon
      exfalso
      revert hcon
      split
      · rename_i e heq
        exact fun hcon => decrypt_aes_gcm_no_hmacFail _ _ _ ((Except.error.inj hcon) ▸ heq)
      · split
        · exact fun hcon => VErr.noConfusion (Except.error.inj hcon)
        · split
          · rename_i e2 heq2
            exact fun hcon => decrypt_chacha20_no_hmacFail _ _ _ ((Except.error.inj hcon) ▸ heq2)
          · split
            · exact fun hcon => VErr.noConfusion (Except.error.inj hcon)
            · exact fun hcon => decrypt_aes_gcm_no_hmacFail _ _ _ hcon
    · exact fun hne => absurd htag hne
  · rw [if_pos htag]
    exact ⟨fun _ => htag, fun _ => rfl⟩

/-- The instrumented dispatcher computes the same result as `auto_decrypt`. -/
theorem auto_decrypt_attempts_fst (C : Crypto) (p s data : Bytes) :
    (auto_decrypt_attempts C p s data).1 = auto_decrypt C p s data := by
  unfold auto_decrypt auto_decrypt_attempts
  by_cases hc : data ≠ [] ∧ data.getD 0 0 = VERSION_V4
  · rw [if_pos hc, if_pos hc]
  · rw [if_neg hc, if_neg hc]
    rcases h3 : v3_decrypt C p s data with e | plain
    · rfl
    · simp only []
      rcases h4 : from_utf8 plain with _ | s2 <;> rfl

/-- The HMAC wrapper output is 32 bytes under the oracle contract. -/
theorem compute_hmac_len (C : Crypto) (hC : CryptoOk C) (k d : Bytes) :
    (compute_hmac C k d).length = 32 :=
  hC.hmac_len k d

set_option maxRecDepth 4000 in
/-- The instrumented `v4_decrypt` computes the same result as `v4_decrypt`. -/
theorem v4_decrypt_kdfCount_fst (C : Crypto) (p l data : Bytes) :
    (v4_decrypt_kdfCount C p l data).1 = v4_decrypt C p l data := by
  simp only [v4_decrypt, v4_decrypt_kdfCount]
  split
  · rfl
  · split
    · rfl
    · split
      · rfl
      · split
        · rfl
        · split
          · rfl
          · split
            · rfl
            · split
              · rfl
              · rfl

set_option maxRecDepth 100000 in
/-- Claim C1, counterexample to the claim as stated: at a concrete input the
trailing 32-byte tag of `v4_encrypt` is NOT the HMAC over bytes
[1, len - 32) (salt ‖ outer ciphertext) — the source computes the tag over
the outer ciphertext alone. -/
theorem claim_C1_counterexample :
    (v4_encrypt toyCrypto (strBytes "pw") LOCAL_SALT [] r0).drop
        ((v4_encrypt toyCrypto (strBytes "pw") LOCAL_SALT [] r0).length - 32)
      ≠ compute_hmac toyCrypto derive_embedded_key
          (((v4_encrypt toyCrypto (strBytes "pw") LOCAL_SALT [] r0).take
              ((v4_encrypt toyCrypto (strBytes "pw") LOCAL_SALT [] r0).length - 32)).drop 1) := by
  decide

/-- Claim C1 (amended): the v4 outer HMAC tag covers only the outer
ciphertext, not the outer salt: the trailing 32 bytes of `v4_encrypt` equal
HMAC(S, C_o), the HMAC over bytes [33, len - 32) of the blob, and
`v4_decrypt` verifies the HMAC over those same bytes [33, len - 32). -/
theorem claim_C1_amended (C : Crypto) (hC : CryptoOk C) (p l P : Bytes) (r : V4Rand) (hr : r.Ok)
    (data : Bytes)
    (hlen : ¬ data.length < 1 + ARGON2_SALT_LEN + GCM_NONCE_LEN + 16 + 32)
    (hver : data.getD 0 0 = VERSION_V4) :
    (v4_encrypt C p l P r).drop ((v4_encrypt C p l P r).length - 32)
        = compute_hmac C derive_embedded_key
            (((v4_encrypt C p l P r).take ((v4_encrypt C p l P r).length - 32)).drop
              (1 + ARGON2_SALT_LEN)) ∧
    (v4_decrypt C p l data = .error .hmacFail ↔
      data.drop (data.length - 32) ≠
        compute_hmac C derive_embedded_key
          ((data.take (data.length - 32)).drop (1 + ARGON2_SALT_LEN))) := by
  obtain ⟨hs1, hn1, hs2, hn2, hs3, hn3⟩ := hr
  constructor
  · simp only [v4_encrypt]
    rw [blob_drop_tag _ _ _ (compute_hmac_len C hC _ _),
        blob_hmac_slice _ _ _ hs3 (compute_hmac_len C hC _ _)]
  · exact v4_decrypt_hmacFail_iff C p l data hlen hver

/-- Witness for C1 (amended) at the toy oracle and concrete inputs. -/
theorem claim_C1_amended_witness :
    (v4_encrypt toyCrypto (strBytes "pw") LOCAL_SALT [] r0).drop
        ((v4_encrypt toyCrypto (strBytes "pw") LOCAL_SALT [] r0).length - 32)
      = compute_hmac toyCrypto derive_embedded_key
          (((v4_encrypt toyCrypto (strBytes "pw") LOCAL_SALT [] r0).take
              ((v4_encrypt toyCrypto (strBytes "pw") LOCAL_SALT [] r0).length - 32)).drop
            (1 + ARGON2_SALT_LEN)) ∧
    (v4_decrypt toyCrypto (strBytes "pw") LOCAL_SALT (List.replicate 93 VERSION_V4)
        = .error .hmacFail ↔
      (List.replicate 93 VERSION_V4).drop ((List.replicate 93 VERSION_V4).length - 32) ≠
        compute_hmac toyCrypto derive_embedded_key
          (((List.replicate 93 VERSION_V4).take ((List.replicate 93 VERSION_V4).length - 32)).drop
            (1 + ARGON2_SALT_LEN))) :=
  claim_C1_amended toyCrypto toyCrypto_ok (strBytes "pw") LOCAL_SALT [] r0 r0_ok
    (List.replicate 93 VERSION_V4) (by decide) (by decide)

/-- Claim C2: round-trip — for every passphrase, salt label and plaintext,
`v4_decrypt` applied to `v4_encrypt` succeeds and returns exactly the
plaintext (for any oracle meeting the crypto contracts and any randomness of
the drawn lengths). -/
theorem claim_C2_roundtrip (C : Crypto) (hC : CryptoOk C) (p l P : Bytes) (r : V4Rand)
    (hr : r.Ok) : v4_decrypt C p l (v4_encrypt C p l P r) = .ok P :=
  v4_roundtrip C hC p l P r hr

/-- Witness for C2 at the toy oracle and concrete inputs. -/
theorem claim_C2_roundtrip_witness :
    v4_decrypt toyCrypto (strBytes "pw") LOCAL_SALT
      (v4_encrypt toyCrypto (strBytes "pw") LOCAL_SALT [1, 2, 3] r0) = .ok [1, 2, 3] :=
  claim_C2_roundtrip toyCrypto toyCrypto_ok (strBytes "pw") LOCAL_SALT [1, 2, 3] r0 r0_ok

/-- Claim C3: a nonempty blob with leading byte 0x04 is handled exclusively
by the v4 pipeline — the dispatcher attempts only the v4 decoder and returns
the v4 (or UTF-8) outcome directly, never trying v3 or v2. -/
theorem claim_C3_v4_terminal (C : Crypto) (p s data : Bytes)
    (h1 : data ≠ []) (h2 : data.getD 0 0 = VERSION_V4) :
    auto_decrypt_attempts C p s data = (v4_then_utf8 C p s data, [Ver.v4]) := by
  unfold auto_decrypt_attempts
  rw [if_pos ⟨h1, h2⟩]

/-- Witness for C3 at a concrete v4-marked blob (which is too short, so the
v4 error is returned directly). -/
theorem claim_C3_v4_terminal_witness :
    auto_decrypt_attempts toyCrypto (strBytes "pw") LOCAL_SALT [VERSION_V4]
      = (v4_then_utf8 toyCrypto (strBytes "pw") LOCAL_SALT [VERSION_V4], [Ver.v4]) :=
  claim_C3_v4_terminal toyCrypto (strBytes "pw") LOCAL_SALT [VERSION_V4] (by decide) (by decide)

/-- Claim C4: early-fail ordering — when the stored tag of a long-enough
v4-marked blob differs from the recomputed HMAC, `v4_decrypt` fails at the
HMAC gate with zero Argon2id KDF invocations. -/
theorem claim_C4_early_fail (C : Crypto) (p l data : Bytes)
    (hlen : ¬ data.length < 1 + ARGON2_SALT_LEN + GCM_NONCE_LEN + 16 + 32)
    (hver : data.getD 0 0 = VERSION_V4)
    (htag : data.drop (data.length - 32) ≠
      compute_hmac C derive_embedded_key
        ((data.take (data.length - 32)).drop (1 + ARGON2_SALT_LEN))) :
    v4_decrypt_kdfCount C p l data = (.error .hmacFail, 0) := by
  simp only [v4_decrypt_kdfCount]
  rw [if_neg hlen, if_neg (not_ne_iff.mpr hver), if_pos htag]

/-- Witness for C4 at a concrete tampered blob. -/
theorem claim_C4_early_fail_witness :
    v4_decrypt_kdfCount toyCrypto (strBytes "pw") LOCAL_SALT (List.replicate 93 VERSION_V4)
      = (.error .hmacFail, 0) :=
  claim_C4_early_fail toyCrypto (strBytes "pw") LOCAL_SALT (List.replicate 93 VERSION_V4)
    (by decide) (by decide) (by decide)

/-- Claim C5, counterexample to the claim as stated: the blob [0x05] does
not start with 0x04, yet `v4_decrypt` reports the too-short MalformedError,
not VersionError — the length check is decided first. -/
theorem claim_C5_counterexample :
    v4_decrypt toyCrypto (strBytes "pw") LOCAL_SALT [5] = .error .v4TooShort ∧
    v4_decrypt toyCrypto (strBytes "pw") LOCAL_SALT [5] ≠ .error .notV4 :=
  ⟨rfl, fun h => VErr.noConfusion (Except.error.inj ((rfl :
    v4_decrypt toyCrypto (strBytes "pw") LOCAL_SALT [5] = .error .v4TooShort).symm.trans h))⟩

/-- Claim C5 (amended): the minimum-length check is decided before the
version-byte check — every blob shorter than 93 bytes yields the too-short
MalformedError regardless of its first byte, and VersionError is returned
exactly for blobs of length at least 93 whose first byte is not 0x04. -/
theorem claim_C5_amended (C : Crypto) (p l data : Bytes) :
    (data.length < 1 + ARGON2_SALT_LEN + GCM_NONCE_LEN + 16 + 32 →
      v4_decrypt C p l data = .error .v4TooShort) ∧
    (v4_decrypt C p l data = .error .notV4 ↔
      ¬ data.length < 1 + ARGON2_SALT_LEN + GCM_NONCE_LEN + 16 + 32 ∧
        data.getD 0 0 ≠ VERSION_V4) := by
  constructor
  · intro h
    simp only [v4_decrypt]
    rw [if_pos h]
  · constructor
    · intro hres
      by_cases h1 : data.length < 1 + ARGON2_SALT_LEN + GCM_NONCE_LEN + 16 + 32
      · exfalso
        simp only [v4_decrypt] at hres
        rw [if_pos h1] at hres
        exact VErr.noConfusion (Except.error.inj hres)
      · refine ⟨h1, ?_⟩
        by_cases h2 : data.getD 0 0 ≠ VERSION_V4
        · exact h2
        · exfalso
          have hver : data.getD 0 0 = VERSION_V4 := not_not.mp h2
          simp only [v4_decrypt] at hres
          rw [if_neg h1, if_neg (not_ne_iff.mpr hver)] at hres
          revert hres
          split
          · exact fun hres => VErr.noConfusion (Except.error.inj hres)
          · split
            · rename_i e heq
              exact fun hres => decrypt_aes_gcm_no_notV4 _ _ _ ((Except.error.inj hres) ▸ heq)
            · split
              · exact fun hres => VErr.noConfusion (Except.error.inj hres)
              · split
                · rename_i e2 heq2
                  exact fun hres =>
                    decrypt_chacha20_no_notV4 _ _ _ ((Except.error.inj hres) ▸ heq2)
                · split
                  · exact fun hres => VErr.noConfusion (Except.error.inj hres)
                  · exact fun hres => decrypt_aes_gcm_no_notV4 _ _ _ hres
    · rintro ⟨h1, h2⟩
      simp only [v4_decrypt]
      rw [if_neg h1, if_pos h2]

/-- Witness for C5 (amended) at two concrete blobs. -/
theorem claim_C5_amended_witness :
    v4_decrypt toyCrypto (strBytes "pw") GIT_SALT [5] = .error .v4TooShort ∧
    v4_decrypt toyCrypto (strBytes "pw") GIT_SALT (List.replicate 93 5) = .error .notV4 :=
  ⟨(claim_C5_amended toyCrypto (strBytes "pw") GIT_SALT [5]).1 (by decide),
   (claim_C5_amended toyCrypto (strBytes "pw") GIT_SALT (List.replicate 93 5)).2.mpr
     ⟨by decide, by decide⟩⟩

/-- Claim C9 (the code omits what the claim requires): in `v4_encrypt` every
KDF call allocates a derived-key buffer (three in total) and wipes only its
`combined` passphrase ‖ seed input; no derived-key buffer is ever zeroized,
for any oracle, passphrase, label, plaintext and randomness. -/
theorem claim_C9_keys_never_wiped (C : Crypto) (p l P : Bytes) (r : V4Rand) :
    (v4_encrypt_traced C p l P r).1 = v4_encrypt C p l P r ∧
    (v4_encrypt_traced C p l P r).2.count BufEvent.allocKey = 3 ∧
    (v4_encrypt_traced C p l P r).2.count BufEvent.wipeKey = 0 :=
  ⟨rfl, rfl, rfl⟩

/-- Claim C10: exact ciphertext length — the blob is exactly 213 bytes
longer than the plaintext. -/
theorem claim_C10_length (C : Crypto) (hC : CryptoOk C) (p l P : Bytes) (r : V4Rand)
    (hr : r.Ok) : (v4_encrypt C p l P r).length = P.length + 213 :=
  v4_encrypt_length C hC p l P r hr

/-- Witness for C10 at the toy oracle: a 3-byte plaintext gives a 216-byte blob. -/
theorem claim_C10_length_witness :
    (v4_encrypt toyCrypto (strBytes "pw") GIT_SALT [10, 20, 30] r0).length = 216 :=
  claim_C10_length toyCrypto toyCrypto_ok (strBytes "pw") GIT_SALT [10, 20, 30] r0 r0_ok

/-- Reading a freshly written path returns the written content. -/
theorem fsRead_write_self (fs : FS) (p c : Bytes) : fsRead (fsWrite fs p c) p = some c := by
  simp [fsRead, fsWrite]

/-- Writing one path leaves reads of another path unchanged. -/
theorem fsRead_write_other (fs : FS) (p q c : Bytes) (h : p ≠ q) :
    fsRead (fsWrite fs p c) q = fsRead fs q := by
  simp [fsRead, fsWrite, h]

/-- The dispatcher round-trips a v4 blob of a UTF-8 plaintext: the leading
0x04 routes it to the v4 pipeline, which inverts the encryption. -/
theorem auto_decrypt_v4_encrypt (C : Crypto) (hC : CryptoOk C) (key l P : Bytes) (r : V4Rand)
    (hr : r.Ok) (hP : from_utf8 P = some P) :
    auto_decrypt C key l (v4_encrypt C key l P r) = .ok P := by
  have hne : v4_encrypt C key l P r ≠ [] ∧ (v4_encrypt C key l P r).getD 0 0 = VERSION_V4 := by
    simp only [v4_encrypt]
    exact ⟨by simp, blob_getD _ _ _⟩
  unfold auto_decrypt
  rw [if_pos hne]
  unfold v4_then_utf8
  rw [v4_roundtrip C hC key l P r hr]
  simp only []
  rw [hP]

/-- The skip case of the re-encrypt loop: when the file is absent or already
carries the v4 version byte, the accumulator passes through unchanged. -/
theorem reEncStep_skip (C : Crypto) (key : Bytes) (rand : Nat → V4Rand)
    (fs : FS) (w : List Bytes) (n : Nat) (name : Bytes)
    (h : ∀ d, fsRead fs (name ++ strBytes ".enc") = some d → d.getD 0 0 = VERSION_V4) :
    reEncStep C key rand (.ok (fs, w, n)) name = .ok (fs, w, n) := by
  unfold reEncStep
  simp only []
  rcases hv : fsRead fs (name ++ strBytes ".enc") with _ | d
  · rfl
  · simp only []
    have hd := h d hv
    have hne : d ≠ [] := by
      intro hnil
      rw [hnil] at hd
      exact absurd hd (by decide)
    rw [if_pos ⟨hne, hd⟩]

/-- Claim C6: `encrypt_git` writes, for each of the three target names, a v4
encryption (under the git salt label) of exactly the two-byte placeholder;
it reads no file, and every produced blob auto-decrypts back to the
placeholder, which is its own trim. -/
theorem claim_C6_encrypt_git (C : Crypto) (hC : CryptoOk C) (key : Bytes)
    (rand : Nat → V4Rand) (fs : FS) (hr : ∀ i, (rand i).Ok) :
    (cmd_encrypt_git C key rand fs).2 = [] ∧
    fsRead (cmd_encrypt_git C key rand fs).1 (strBytes "rules-index.json" ++ strBytes ".git.enc")
      = some (v4_encrypt C key GIT_SALT placeholder (rand 0)) ∧
    fsRead (cmd_encrypt_git C key rand fs).1 (strBytes "minds-index.json" ++ strBytes ".git.enc")
      = some (v4_encrypt C key GIT_SALT placeholder (rand 1)) ∧
    fsRead (cmd_encrypt_git C key rand fs).1 (strBytes "vibe-library.json" ++ strBytes ".git.enc")
      = some (v4_encrypt C key GIT_SALT placeholder (rand 2)) ∧
    auto_decrypt C key GIT_SALT (v4_encrypt C key GIT_SALT placeholder (rand 0)) = .ok placeholder ∧
    auto_decrypt C key GIT_SALT (v4_encrypt C key GIT_SALT placeholder (rand 1)) = .ok placeholder ∧
    auto_decrypt C key GIT_SALT (v4_encrypt C key GIT_SALT placeholder (rand 2)) = .ok placeholder ∧
    trimAscii placeholder = placeholder := by
  have hcmd : cmd_encrypt_git C key rand fs =
      (fsWrite
        (fsWrite
          (fsWrite fs (strBytes "rules-index.json" ++ strBytes ".git.enc")
            (v4_encrypt C key GIT_SALT placeholder (rand 0)))
          (strBytes "minds-index.json" ++ strBytes ".git.enc")
          (v4_encrypt C key GIT_SALT placeholder (rand 1)))
        (strBytes "vibe-library.json" ++ strBytes ".git.enc")
        (v4_encrypt C key GIT_SALT placeholder (rand 2)), []) := rfl
  refine ⟨by rw [hcmd], ?_, ?_, ?_,
    auto_decrypt_v4_encrypt C hC key GIT_SALT placeholder (rand 0) (hr 0) (by decide),
    auto_decrypt_v4_encrypt C hC key GIT_SALT placeholder (rand 1) (hr 1) (by decide),
    auto_decrypt_v4_encrypt C hC key GIT_SALT placeholder (rand 2) (hr 2) (by decide),
    by decide⟩
  · rw [hcmd]
    rw [fsRead_write_other _ _ _ _ (by decide), fsRead_write_other _ _ _ _ (by decide),
      fsRead_write_self]
  · rw [hcmd]
    rw [fsRead_write_other _ _ _ _ (by decide), fsRead_write_self]
  · rw [hcmd]
    rw [fsRead_write_self]

/-- Witness for C6 at the toy oracle, constant randomness and the empty
directory. -/
theorem claim_C6_encrypt_git_witness :
    (cmd_encrypt_git toyCrypto (strBytes "pw") (fun _ => r0) []).2 = [] ∧
    fsRead (cmd_encrypt_git toyCrypto (strBytes "pw") (fun _ => r0) []).1
        (strBytes "rules-index.json" ++ strBytes ".git.enc")
      = some (v4_encrypt toyCrypto (strBytes "pw") GIT_SALT placeholder r0) ∧
    fsRead (cmd_encrypt_git toyCrypto (strBytes "pw") (fun _ => r0) []).1
        (strBytes "minds-index.json" ++ strBytes ".git.enc")
      = some (v4_encrypt toyCrypto (strBytes "pw") GIT_SALT placeholder r0) ∧
    fsRead (cmd_encrypt_git toyCrypto (strBytes "pw") (fun _ => r0) []).1
        (strBytes "vibe-library.json" ++ strBytes ".git.enc")
      = some (v4_encrypt toyCrypto (strBytes "pw") GIT_SALT placeholder r0) ∧
    auto_decrypt toyCrypto (strBytes "pw") GIT_SALT
        (v4_encrypt toyCrypto (strBytes "pw") GIT_SALT placeholder r0) = .ok placeholder ∧
    auto_decrypt toyCrypto (strBytes "pw") GIT_SALT
        (v4_encrypt toyCrypto (strBytes "pw") GIT_SALT placeholder r0) = .ok placeholder ∧
    auto_decrypt toyCrypto (strBytes "pw") GIT_SALT
        (v4_encrypt toyCrypto (strBytes "pw") GIT_SALT placeholder r0) = .ok placeholder ∧
    trimAscii placeholder = placeholder :=
  claim_C6_encrypt_git toyCrypto toyCrypto_ok (strBytes "pw") (fun _ => r0) [] (fun _ => r0_ok)

/-- Claim C7: `re_encrypt` is a no-op on v4 steady state — when every
existing `name.enc` begins with 0x04, the command succeeds with the
filesystem unchanged, no path written and zero decrypt calls. -/
theorem claim_C7_re_encrypt_noop (C : Crypto) (key : Bytes) (rand : Nat → V4Rand) (fs : FS)
    (h : ∀ name ∈ TARGET_FILES, ∀ d, fsRead fs (name ++ strBytes ".enc") = some d →
      d.getD 0 0 = VERSION_V4) :
    cmd_re_encrypt C key rand fs = .ok (fs, [], 0) := by
  unfold cmd_re_encrypt
  simp only [TARGET_FILES, List.foldl_cons, List.foldl_nil]
  rw [reEncStep_skip C key rand fs [] 0 (strBytes "rules-index.json")
      (h (strBytes "rules-index.json") (by decide))]
  rw [reEncStep_skip C key rand fs [] 0 (strBytes "minds-index.json")
      (h (strBytes "minds-index.json") (by decide))]
  rw [reEncStep_skip C key rand fs [] 0 (strBytes "vibe-library.json")
      (h (strBytes "vibe-library.json") (by decide))]

/-- Witness for C7: a directory whose single `.enc` file is already v4 is
left byte-for-byte unchanged, with no write and no decrypt. -/
theorem claim_C7_re_encrypt_noop_witness :
    cmd_re_encrypt toyCrypto (strBytes "pw") (fun _ => r0)
        [(strBytes "rules-index.json" ++ strBytes ".enc", [VERSION_V4, 9])]
      = .ok ([(strBytes "rules-index.json" ++ strBytes ".enc", [VERSION_V4, 9])], [], 0) :=
  claim_C7_re_encrypt_noop toyCrypto (strBytes "pw") (fun _ => r0)
    [(strBytes "rules-index.json" ++ strBytes ".enc", [VERSION_V4, 9])]
    (by
      intro name hname d hd
      simp only [TARGET_FILES, List.mem_cons, List.not_mem_nil, or_false] at hname
      rcases hname with rfl | rfl | rfl
      · rw [show fsRead [(strBytes "rules-index.json" ++ strBytes ".enc", [VERSION_V4, 9])]
            (strBytes "rules-index.json" ++ strBytes ".enc")
              = some [VERSION_V4, 9] from by decide] at hd
        injection hd with h2
        subst h2
        decide
      · rw [show fsRead [(strBytes "rules-index.json" ++ strBytes ".enc", [VERSION_V4, 9])]
            (strBytes "minds-index.json" ++ strBytes ".enc") = none from by decide] at hd
        exact Option.noConfusion hd
      · rw [show fsRead [(strBytes "rules-index.json" ++ strBytes ".enc", [VERSION_V4, 9])]
            (strBytes "vibe-library.json" ++ strBytes ".enc") = none from by decide] at hd
        exact Option.noConfusion hd)

/-- The `.enc` audit never emits a LEAK event. -/
theorem leak_not_mem_checkEnc (C : Crypto) (key : Bytes) (fs : FS) (name M : Bytes) :
    VEvent.leak M ∉ checkEnc C key fs name := by
  unfold checkEnc
  split
  · simp
  · split
    · simp
    · split
      · split
        · split <;> simp
        · simp
      · split <;> simp

/-- The `.git.enc` audit never emits a LEAK event. -/
theorem leak_not_mem_checkGit (C : Crypto) (key : Bytes) (fs : FS) (name M : Bytes) :
    VEvent.leak M ∉ checkGit C key fs name := by
  unfold checkGit
  split
  · simp
  · split
    · split <;> simp
    · simp

/-- The plaintext audit emits LEAK exactly when the plaintext file exists
and the passphrase occurs in its text as read by
`read_to_string().unwrap_or_default()`. -/
theorem leak_mem_checkPlain (key : Bytes) (fs : FS) (name M : Bytes) :
    VEvent.leak M ∈ checkPlain key fs name ↔
      M = name ∧ ∃ bytes, fsRead fs name = some bytes ∧
        containsSeq key (read_to_string_or_default bytes) = true := by
  unfold checkPlain
  rcases hv : fsRead fs name with _ | bytes
  · simp
  · simp only []
    by_cases hk : containsSeq key (read_to_string_or_default bytes) = true
    · rw [if_pos hk]
      simp [hk]
    · rw [if_neg hk]
      simp [hk]

/-- Claim C8 (amended): `verify` reports LEAK for a target name exactly when
its plaintext file exists and the passphrase occurs as a substring of the
file read as UTF-8 text, where unreadable or non-UTF-8 contents are treated
as the empty string. -/
theorem claim_C8_amended (C : Crypto) (key : Bytes) (fs : FS) (N : Bytes)
    (hN : N ∈ TARGET_FILES) :
    (VEvent.leak N ∈ (cmd_verify C key fs).1 ↔
      ∃ bytes, fsRead fs N = some bytes ∧
        containsSeq key (read_to_string_or_default bytes) = true) := by
  have hev : (cmd_verify C key fs).1 =
      verifyName C key fs (strBytes "rules-index.json") ++
      (verifyName C key fs (strBytes "minds-index.json") ++
       verifyName C key fs (strBytes "vibe-library.json")) := by
    simp [cmd_verify, TARGET_FILES, List.foldl_cons, List.foldl_nil, List.append_assoc]
  rw [hev]
  have d12 : strBytes "rules-index.json" ≠ strBytes "minds-index.json" := by decide
  have d13 : strBytes "rules-index.json" ≠ strBytes "vibe-library.json" := by decide
  have d21 : strBytes "minds-index.json" ≠ strBytes "rules-index.json" := by decide
  have d23 : strBytes "minds-index.json" ≠ strBytes "vibe-library.json" := by decide
  have d31 : strBytes "vibe-library.json" ≠ strBytes "rules-index.json" := by decide
  have d32 : strBytes "vibe-library.json" ≠ strBytes "minds-index.json" := by decide
  simp only [verifyName, List.mem_append, leak_mem_checkPlain,
    leak_not_mem_checkEnc C key fs (strBytes "rules-index.json") N,
    leak_not_mem_checkEnc C key fs (strBytes "minds-index.json") N,
    leak_not_mem_checkEnc C key fs (strBytes "vibe-library.json") N,
    leak_not_mem_checkGit C key fs (strBytes "rules-index.json") N,
    leak_not_mem_checkGit C key fs (strBytes "minds-index.json") N,
    leak_not_mem_checkGit C key fs (strBytes "vibe-library.json") N,
    or_false, false_or]
  simp only [TARGET_FILES, List.mem_cons, List.not_mem_nil, or_false] at hN
  rcases hN with rfl | rfl | rfl
  · simp [d12, d13]
  · simp [d21, d23]
  · simp [d31, d32]

/-- Witness for C8 (amended) at a concrete leaking directory. -/
theorem claim_C8_amended_witness :
    VEvent.leak (strBytes "rules-index.json") ∈
        (cmd_verify toyCrypto [97] [(strBytes "rules-index.json", [97])]).1 ↔
      ∃ bytes, fsRead [(strBytes "rules-index.json", [97])] (strBytes "rules-index.json")
          = some bytes ∧
        containsSeq [97] (read_to_string_or_default bytes) = true :=
  claim_C8_amended toyCrypto [97] [(strBytes "rules-index.json", [97])]
    (strBytes "rules-index.json") (by decide)

/-- Claim C8, counterexample to the claim as stated: a plaintext target file
whose raw bytes contain the passphrase but are not valid UTF-8 is read as
the empty string, so `verify` emits no LEAK event at all. -/
theorem claim_C8_counterexample :
    fsRead [(strBytes "rules-index.json", [97, 255])] (strBytes "rules-index.json")
        = some [97, 255] ∧
    containsSeq [97] [97, 255] = true ∧
    (cmd_verify toyCrypto [97] [(strBytes "rules-index.json", [97, 255])]).1 = [] :=
  ⟨by decide, by decide, by decide⟩

end Violet
